import Mathlib

/-!
Verification of the Water-loss anomaly-scoring pipeline.

The development shallowly embeds the three program units:

* `detect_anomalies` (model/anomaly_detector.py): feature extraction from a
  tabular frame, an isolation-forest fit with fixed hyperparameters, min-max
  rescaling of the negated decision scores to [0, 100], and tier
  classification.
* `generate_live_data` (utils/live_data.py): perturbation of one sampled row.
* `generate_explanation` (utils/explanation.py): tier-keyed template texts.

Machine floats are embedded as rationals; the isolation-forest fit itself is
kept abstract as a pair of functions of the hyperparameters and the training
matrix, which is all the stated properties depend on.
-/

namespace WaterLoss

/-- Cell value of a tabular frame: the input CSV holds numeric columns
(Water_Usage_Liters, Pressure) and string columns (Zone_ID, Date). -/
inductive Value where
  | num : ℚ → Value
  | str : String → Value
  deriving DecidableEq, Repr

/-- In-memory table: ordered column names plus rows of cells, cell `j` of a
row belonging to column `j`. -/
structure DataFrame where
  cols : List String
  rows : List (List Value)
  deriving DecidableEq, Repr

/-- Rectangularity: every row has one cell per column (guaranteed by the
pandas frame representation). -/
def DataFrame.Rect (df : DataFrame) : Prop :=
  ∀ r ∈ df.rows, r.length = df.cols.length

instance (df : DataFrame) : Decidable df.Rect :=
  List.decidableBAll _ df.rows

/-- Option-valued map over a list, failing when `f` fails on any element
(element-wise extraction from a frame column). -/
def optMap {α β : Type} (f : α → Option β) : List α → Option (List β)
  | [] => some []
  | x :: xs =>
    match f x, optMap f xs with
    | some y, some ys => some (y :: ys)
    | _, _ => none

/-- Column lookup by name: position of the first matching header, then that
cell from every row; `none` models the KeyError a lookup of an absent column
raises. -/
def DataFrame.getCol (df : DataFrame) (c : String) : Option (List Value) :=
  match df.cols.findIdx? (fun x => x == c) with
  | none => none
  | some i => optMap (fun r => r[i]?) df.rows

/-- Column assignment: overwrite in place when the column exists, append a
new rightmost column otherwise (pandas assignment semantics). -/
def DataFrame.setCol (df : DataFrame) (c : String) (vs : List Value) : DataFrame :=
  match df.cols.findIdx? (fun x => x == c) with
  | some i => ⟨df.cols, List.zipWith (fun r v => r.set i v) df.rows vs⟩
  | none => ⟨df.cols ++ [c], List.zipWith (fun r v => r ++ [v]) df.rows vs⟩

/-- Errors of the scoring pipeline: the KeyError raised by selecting an
absent feature column, the ValueError raised by fitting on an empty matrix,
and the ValueError raised by non-numeric feature cells. The spec names the
first two FeatureMissingError and InsufficientDataError. -/
inductive ScoreError where
  | featureMissing
  | insufficientData
  | valueError
  deriving DecidableEq, Repr

/-- Outlier-fraction hyperparameter fixed in the source: contamination=0.2. -/
def contamination : ℚ := 1 / 5

/-- Seed fixed in the source: random_state=42. -/
def random_state : ℕ := 42

/-- Abstract isolation-forest algorithm: given the contamination, the seed
and the training matrix, a per-row label and a per-row decision score (lower
score = more anomalous). The pipeline's stated properties hold for every
such algorithm. -/
structure ForestAlgo where
  predictFn : ℚ → ℕ → List (ℚ × ℚ) → (ℚ × ℚ) → ℤ
  decisionFn : ℚ → ℕ → List (ℚ × ℚ) → (ℚ × ℚ) → ℚ

/-- Numeric content of a cell, if any. -/
def numValue : Value → Option ℚ
  | .num q => some q
  | .str _ => none

/-- Feature extraction: the Water_Usage_Liters and Pressure columns paired
row-wise into an (n, 2) matrix, failing like the source's column selection
when either column is absent. -/
def extractFeatures (df : DataFrame) : Except ScoreError (List (ℚ × ℚ)) :=
  match df.getCol "Water_Usage_Liters", df.getCol "Pressure" with
  | some us, some ps =>
    match optMap numValue us, optMap numValue ps with
    | some us', some ps' => .ok (us'.zip ps')
    | _, _ => .error .valueError
  | _, _ => .error .featureMissing

/-- Minimum of a batch of rationals (0 on the empty batch, never consulted
there). -/
def listMin : List ℚ → ℚ
  | [] => 0
  | x :: xs => xs.foldl min x

/-- Maximum of a batch of rationals. -/
def listMax : List ℚ → ℚ
  | [] => 0
  | x :: xs => xs.foldl max x

/-- MinMaxScaler with feature_range (0, 100): scale factor 100 / data_range
with a zero data range replaced by 1 (sklearn handles zeros in the scale
this way), then each value maps to (x - data_min) * scale. -/
def minmaxScale (xs : List ℚ) : List ℚ :=
  let lo := listMin xs
  let range := listMax xs - lo
  let scale := 100 / (if range = 0 then 1 else range)
  xs.map (fun x => (x - lo) * scale)

/-- Tier classification from the source: 70 and above is High, 40 and above
is Medium, anything below is Low. -/
def risk_level (score : ℚ) : String :=
  if score ≥ 70 then "High"
  else if score ≥ 40 then "Medium"
  else "Low"

/-- Raw decision scores of every row of the batch, the model having been
fitted on the batch itself with the fixed hyperparameters. -/
def rawScores (algo : ForestAlgo) (X : List (ℚ × ℚ)) : List ℚ :=
  X.map (algo.decisionFn contamination random_state X)

/-- Negated raw scores, the input of the min-max rescaling. -/
def negScores (algo : ForestAlgo) (X : List (ℚ × ℚ)) : List ℚ :=
  (rawScores algo X).map (fun s => -s)

/-- Batch of risk scores: min-max rescaling of the negated raw scores. -/
def riskScores (algo : ForestAlgo) (X : List (ℚ × ℚ)) : List ℚ :=
  minmaxScale (negScores algo X)

/-- Per-row labels of the fitted model, as frame cells. -/
def anomalyLabels (algo : ForestAlgo) (X : List (ℚ × ℚ)) : List Value :=
  X.map (fun p => Value.num ((algo.predictFn contamination random_state X p : ℤ) : ℚ))

/-- Frame annotation step of the scorer: the four column assignments
performed on the copied frame, in source order. -/
def annotate (algo : ForestAlgo) (df : DataFrame) (X : List (ℚ × ℚ)) : DataFrame :=
  let d1 := df.setCol "anomaly" (anomalyLabels algo X)
  let d2 := d1.setCol "anomaly_score" ((rawScores algo X).map Value.num)
  let d3 := d2.setCol "risk_score" ((riskScores algo X).map Value.num)
  d3.setCol "Risk_Level" ((riskScores algo X).map (fun s => Value.str (risk_level s)))

/-- Shallow embedding of detect_anomalies: extract the feature matrix, fail
on an empty batch like the underlying fit does, then assign the four new
columns anomaly, anomaly_score, risk_score and Risk_Level. -/
def detect_anomalies (algo : ForestAlgo) (df : DataFrame) :
    Except ScoreError DataFrame :=
  match extractFeatures df with
  | .error e => .error e
  | .ok X =>
    if X.isEmpty then .error .insufficientData
    else .ok (annotate algo df X)

/-- Heap of frame objects, addressed by allocation order. -/
structure Heap where
  frames : List DataFrame
  deriving DecidableEq, Repr

/-- Frame stored at a reference. -/
def Heap.read (h : Heap) (r : ℕ) : Option DataFrame := h.frames[r]?

/-- Overwrite the frame stored at a reference. -/
def Heap.write (h : Heap) (r : ℕ) (df : DataFrame) : Heap := ⟨h.frames.set r df⟩

/-- Allocate a new frame at the next free reference. -/
def Heap.alloc (h : Heap) (df : DataFrame) : Heap := ⟨h.frames ++ [df]⟩

/-- Heap-level view of a call detect_anomalies(df): the body's first line
rebinds the local name to a fresh copy of the caller's frame, so every later
in-place column write targets that copy (collapsed here into one write of
the annotated frame to the fresh reference); the caller's reference is never
written. -/
def detect_anomaliesH (algo : ForestAlgo) (h : Heap) (r0 : ℕ) :
    Except ScoreError ℕ × Heap :=
  match h.read r0 with
  | none => (.error .featureMissing, h)
  | some caller =>
    let r1 := h.frames.length
    let h1 := h.alloc caller
    match detect_anomalies algo caller with
    | .error e => (.error e, h1)
    | .ok out => (.ok r1, h1.write r1 out)

/-- Row of input readings as the spec's Reading record. -/
structure Reading where
  zone_id : String
  date : String
  usage : ℚ
  pressure : ℚ
  deriving DecidableEq, Repr

/-- Error of the injector: the ValueError df.sample(1) raises on an empty
frame, named EmptyInputError by the spec. -/
inductive LiveError where
  | emptyInput
  deriving DecidableEq, Repr

/-- Mutation applied to the sampled row: add the integer draw to usage, the
real draw to pressure, overwrite the date with the formatted current time. -/
def perturb (du : ℤ) (dp : ℚ) (now : String) (r : Reading) : Reading :=
  { r with usage := r.usage + (du : ℚ), pressure := r.pressure + dp, date := now }

/-- Shallow embedding of generate_live_data with the random draws as
parameters: `idx` is the position sampled by df.sample(1) (always a valid
position of a non-empty frame), `du` the random.randint(-50, 200) draw,
`dp` the random.uniform(-0.3, 0.2) draw and `now` the current time formatted
as YYYY-MM-DD HH:MM:SS by datetime.now().strftime. -/
def generate_live_data (idx : ℕ) (du : ℤ) (dp : ℚ) (now : String)
    (rs : List Reading) : Except LiveError (List Reading) :=
  if rs.isEmpty then .error .emptyInput
  else
    match rs[idx]? with
    | some r => .ok (rs.set idx (perturb du dp now r))
    | none => .ok rs

/-- Template returned for the High tier. -/
def highText : String :=
  "A sharp increase in water usage combined with reduced pressure was detected. This pattern strongly suggests a possible underground leak."

/-- Template returned for the Medium tier. -/
def mediumText : String :=
  "Water usage shows moderate deviation from historical patterns. This zone should be monitored closely."

/-- Template returned by the final else branch. -/
def lowText : String :=
  "Water usage and pressure levels are within expected limits. No immediate action is required."

/-- Shallow embedding of generate_explanation, keyed on the row's Risk_Level
value: High and Medium map to their templates and the final else branch
returns the Low template for every other value. -/
def generate_explanation (risk_lvl : String) : String :=
  if risk_lvl = "High" then highText
  else if risk_lvl = "Medium" then mediumText
  else lowText

/-- Concrete isolation-forest instance used to evaluate the embedding on
closed inputs: every label 1, the decision score of a row is its usage. -/
def wAlgo : ForestAlgo :=
  { predictFn := fun _ _ _ _ => 1
    decisionFn := fun _ _ _ p => p.1 }

/-- Concrete two-row frame with distinct usages. -/
def wDf : DataFrame :=
  { cols := ["Zone_ID", "Water_Usage_Liters", "Pressure"]
    rows := [[.str "Z1", .num 10, .num 5],
             [.str "Z2", .num 30, .num 5]] }

/-- Feature matrix of `wDf`. -/
def wX : List (ℚ × ℚ) := [(10, 5), (30, 5)]

/-- Scored frame produced from `wDf`. -/
def wOut : DataFrame := ((detect_anomalies wAlgo wDf).toOption).getD ⟨[], []⟩

/-- Concrete two-row frame whose rows are identical. -/
def wDfc : DataFrame :=
  { cols := ["Zone_ID", "Water_Usage_Liters", "Pressure"]
    rows := [[.str "Z1", .num 10, .num 5],
             [.str "Z2", .num 10, .num 5]] }

/-- Feature matrix of `wDfc`. -/
def wXc : List (ℚ × ℚ) := [(10, 5), (10, 5)]

/-- Concrete empty frame that still carries both feature columns. -/
def wDfe : DataFrame := { cols := ["Water_Usage_Liters", "Pressure"], rows := [] }

/-- Concrete frame lacking the usage column. -/
def wDfm : DataFrame := { cols := ["Zone_ID", "Pressure"], rows := [[.str "Z1", .num 5]] }

/-- Concrete frame sharing the feature matrix of `wDf` but not its zones. -/
def wDf2 : DataFrame :=
  { cols := ["Zone_ID", "Water_Usage_Liters", "Pressure"]
    rows := [[.str "A7", .num 10, .num 5],
             [.str "A9", .num 30, .num 5]] }

/-- Scored frame produced from `wDf2`. -/
def wOut2 : DataFrame := ((detect_anomalies wAlgo wDf2).toOption).getD ⟨[], []⟩

/-- Concrete one-frame heap. -/
def wHeap : Heap := ⟨[wDf]⟩

/-- Concrete batch of readings. -/
def wRs : List Reading :=
  [⟨"Z1", "2024-01-01", 100, 5⟩, ⟨"Z2", "2024-01-02", 105, 51 / 10⟩]

/-- Concrete injector output on `wRs`, perturbing row 1. -/
def wRsOut : List Reading :=
  ((generate_live_data 1 7 (1 / 10) "2025-01-01 00:00:00" wRs).toOption).getD []

/-! ### Helper lemmas about `optMap` -/

theorem optMap_length {α β : Type} {f : α → Option β} {l : List α} {l' : List β}
    (h : optMap f l = some l') : l'.length = l.length := by
  induction l generalizing l' with
  | nil =>
    simp only [optMap] at h
    cases h
    rfl
  | cons x xs ih =>
    simp only [optMap] at h
    split at h
    next y ys hy hys =>
      cases h
      simp [ih hys]
    next => cases h

theorem optMap_nil {α β : Type} (f : α → Option β) : optMap f [] = some [] := rfl

theorem optMap_congr {α β : Type} {f g : α → Option β} {l l₂ : List α}
    (hlen : l₂.length = l.length)
    (hfg : ∀ i : ℕ, (l₂[i]?).bind g = (l[i]?).bind f) :
    optMap g l₂ = optMap f l := by
  induction l generalizing l₂ with
  | nil =>
    have : l₂ = [] := List.eq_nil_of_length_eq_zero hlen
    subst this
    rfl
  | cons x xs ih =>
    cases l₂ with
    | nil => simp at hlen
    | cons y ys =>
      have h0 := hfg 0
      simp only [List.getElem?_cons_zero, Option.some_bind] at h0
      have ht : optMap g ys = optMap f xs := by
        refine ih (by simpa using hlen) (fun i => ?_)
        simpa using hfg (i + 1)
      simp only [optMap, h0, ht]

/-! ### Helper lemmas about `findIdx?` on column names -/

theorem findIdx?_beq_none {c : String} {l : List String} (h : c ∉ l) :
    l.findIdx? (fun x => x == c) = none := by
  rw [List.findIdx?_eq_none_iff]
  intro x hx
  rw [beq_eq_false_iff_ne]
  rintro rfl
  exact h hx

theorem findIdx?_beq_isSome {c : String} {l : List String} (h : c ∈ l) :
    ∃ i, l.findIdx? (fun x => x == c) = some i ∧ i < l.length := by
  cases hfi : l.findIdx? (fun x => x == c) with
  | none =>
    rw [List.findIdx?_eq_none_iff] at hfi
    have := hfi c h
    simp at this
  | some i =>
    refine ⟨i, rfl, ?_⟩
    exact (List.findIdx?_eq_some_iff_findIdx_eq.mp hfi).1

/-! ### Helper lemmas about fresh-column assignment -/

theorem setCol_fresh_def {df : DataFrame} {c : String} {vs : List Value}
    (h : c ∉ df.cols) :
    df.setCol c vs =
      ⟨df.cols ++ [c], List.zipWith (fun r v => r ++ [v]) df.rows vs⟩ := by
  unfold DataFrame.setCol
  rw [findIdx?_beq_none h]

theorem setCol_fresh_cols {df : DataFrame} {c : String} {vs : List Value}
    (h : c ∉ df.cols) : (df.setCol c vs).cols = df.cols ++ [c] := by
  rw [setCol_fresh_def h]

theorem setCol_fresh_rows_length {df : DataFrame} {c : String} {vs : List Value}
    (h : c ∉ df.cols) (hlen : vs.length = df.rows.length) :
    (df.setCol c vs).rows.length = df.rows.length := by
  rw [setCol_fresh_def h]
  simp [hlen]

theorem setCol_fresh_rows_getElem? {df : DataFrame} {c : String} {vs : List Value}
    (h : c ∉ df.cols) (i : ℕ) :
    (df.setCol c vs).rows[i]? =
      (df.rows[i]?).bind (fun r => (vs[i]?).map (fun v => r ++ [v])) := by
  rw [setCol_fresh_def h]
  show (List.zipWith (fun r v => r ++ [v]) df.rows vs)[i]? = _
  rw [List.getElem?_zipWith]
  cases df.rows[i]? <;> cases vs[i]? <;> simp

theorem setCol_fresh_rect {df : DataFrame} {c : String} {vs : List Value}
    (h : c ∉ df.cols) (hrect : df.Rect) : (df.setCol c vs).Rect := by
  intro r hr
  rw [List.mem_iff_getElem?] at hr
  obtain ⟨i, hi⟩ := hr
  rw [setCol_fresh_rows_getElem? h] at hi
  cases hrow : df.rows[i]? with
  | none => rw [hrow] at hi; cases hi
  | some r0 =>
    rw [hrow] at hi
    cases hv : vs[i]? with
    | none => rw [hv] at hi; cases hi
    | some v =>
      rw [hv] at hi
      simp only [Option.some_bind, Option.map_some'] at hi
      cases hi
      have hr0 : r0 ∈ df.rows := List.getElem?_mem hrow
      rw [setCol_fresh_cols h]
      simp [hrect r0 hr0]

theorem getCol_not_mem {df : DataFrame} {c : String} (h : c ∉ df.cols) :
    df.getCol c = none := by
  unfold DataFrame.getCol
  rw [findIdx?_beq_none h]

theorem getCol_length {df : DataFrame} {c : String} {vs : List Value}
    (h : df.getCol c = some vs) : vs.length = df.rows.length := by
  unfold DataFrame.getCol at h
  split at h
  · cases h
  · exact optMap_length h

theorem optMap_zipWith_append_self {k : ℕ} :
    ∀ (rows : List (List Value)) (vs : List Value),
      (∀ r ∈ rows, r.length = k) → vs.length = rows.length →
      optMap (fun r => r[k]?) (List.zipWith (fun r v => r ++ [v]) rows vs) = some vs
  | [], vs, _, hlen => by
    have : vs = [] := List.eq_nil_of_length_eq_zero hlen
    subst this
    rfl
  | r :: rt, [], _, hlen => by simp at hlen
  | r :: rt, v :: vt, hk, hlen => by
    have hr : r.length = k := hk r (by simp)
    have hget : (r ++ [v])[k]? = some v := by
      rw [List.getElem?_append_right (by omega)]
      simp [hr]
    have ht := optMap_zipWith_append_self rt vt
      (fun r' hr' => hk r' (by simp [hr'])) (by simpa using hlen)
    simp only [List.zipWith_cons_cons, optMap, hget, ht]

theorem getCol_setCol_fresh_self {df : DataFrame} {c : String} {vs : List Value}
    (hrect : df.Rect) (h : c ∉ df.cols) (hlen : vs.length = df.rows.length) :
    (df.setCol c vs).getCol c = some vs := by
  rw [setCol_fresh_def h]
  unfold DataFrame.getCol
  rw [List.findIdx?_append, findIdx?_beq_none h]
  simp only [Option.none_or, List.findIdx?_cons, beq_self_eq_true, if_true,
    Option.map_some', Nat.zero_add]
  exact optMap_zipWith_append_self df.rows vs hrect hlen

theorem getCol_setCol_fresh_other {df : DataFrame} {c c' : String} {vs : List Value}
    (hrect : df.Rect) (h : c ∉ df.cols) (hlen : vs.length = df.rows.length)
    (hne : c' ≠ c) :
    (df.setCol c vs).getCol c' = df.getCol c' := by
  rw [setCol_fresh_def h]
  unfold DataFrame.getCol
  have hc : ([c].findIdx? (fun x => x == c')) = none := by
    rw [List.findIdx?_eq_none_iff]
    intro x hx
    rw [List.mem_singleton] at hx
    subst hx
    rw [beq_eq_false_iff_ne]
    exact fun hcc => hne hcc.symm
  rw [List.findIdx?_append, hc]
  simp only [Option.map_none', Option.or_none]
  cases hfi : df.cols.findIdx? (fun x => x == c') with
  | none => rfl
  | some i =>
    have hi : i < df.cols.length := (List.findIdx?_eq_some_iff_findIdx_eq.mp hfi).1
    show optMap (fun r => r[i]?) (List.zipWith (fun r v => r ++ [v]) df.rows vs) =
      optMap (fun r => r[i]?) df.rows
    refine optMap_congr ?_ (fun j => ?_)
    · simp [hlen]
    · rw [List.getElem?_zipWith]
      cases hrow : df.rows[j]? with
      | none => simp
      | some r0 =>
        cases hv : vs[j]? with
        | none =>
          exfalso
          rw [List.getElem?_eq_none_iff] at hv
          have hj : j < df.rows.length := by
            by_contra hj
            rw [List.getElem?_eq_none (by omega)] at hrow
            cases hrow
          omega
        | some v =>
          have hr0 : r0.length = df.cols.length := hrect r0 (List.getElem?_mem hrow)
          simp only [Option.some_bind]
          rw [List.getElem?_append, if_pos (show i < r0.length by omega)]

/-! ### Helper lemmas about batch minima, maxima and the min-max rescaling -/

theorem foldl_min_le_init (xs : List ℚ) (a : ℚ) : xs.foldl min a ≤ a := by
  induction xs generalizing a with
  | nil => simp
  | cons x xt ih => exact le_trans (ih (min a x)) (min_le_left a x)

theorem foldl_min_le_mem {xs : List ℚ} {x : ℚ} (hx : x ∈ xs) (a : ℚ) :
    xs.foldl min a ≤ x := by
  induction xs generalizing a with
  | nil => cases hx
  | cons y yt ih =>
    rcases List.mem_cons.mp hx with rfl | hmem
    · exact le_trans (foldl_min_le_init yt (min a x)) (min_le_right a x)
    · exact ih hmem (min a y)

theorem foldl_min_mem (xs : List ℚ) (a : ℚ) :
    xs.foldl min a = a ∨ xs.foldl min a ∈ xs := by
  induction xs generalizing a with
  | nil => exact Or.inl rfl
  | cons x xt ih =>
    rw [List.foldl_cons]
    rcases ih (min a x) with h | h
    · rw [h]
      rcases min_choice a x with h2 | h2
      · exact Or.inl h2
      · exact Or.inr (by rw [h2]; exact List.mem_cons_self x xt)
    · exact Or.inr (List.mem_cons_of_mem x h)

theorem init_le_foldl_max (xs : List ℚ) (a : ℚ) : a ≤ xs.foldl max a := by
  induction xs generalizing a with
  | nil => simp
  | cons x xt ih => exact le_trans (le_max_left a x) (ih (max a x))

theorem mem_le_foldl_max {xs : List ℚ} {x : ℚ} (hx : x ∈ xs) (a : ℚ) :
    x ≤ xs.foldl max a := by
  induction xs generalizing a with
  | nil => cases hx
  | cons y yt ih =>
    rcases List.mem_cons.mp hx with rfl | hmem
    · exact le_trans (le_max_right a x) (init_le_foldl_max yt (max a x))
    · exact ih hmem (max a y)

theorem foldl_max_mem (xs : List ℚ) (a : ℚ) :
    xs.foldl max a = a ∨ xs.foldl max a ∈ xs := by
  induction xs generalizing a with
  | nil => exact Or.inl rfl
  | cons x xt ih =>
    rw [List.foldl_cons]
    rcases ih (max a x) with h | h
    · rw [h]
      rcases max_choice a x with h2 | h2
      · exact Or.inl h2
      · exact Or.inr (by rw [h2]; exact List.mem_cons_self x xt)
    · exact Or.inr (List.mem_cons_of_mem x h)

theorem listMin_le {xs : List ℚ} {x : ℚ} (hx : x ∈ xs) : listMin xs ≤ x := by
  cases xs with
  | nil => cases hx
  | cons y yt =>
    rcases List.mem_cons.mp hx with rfl | hmem
    · exact foldl_min_le_init yt x
    · exact foldl_min_le_mem hmem y

theorem le_listMax {xs : List ℚ} {x : ℚ} (hx : x ∈ xs) : x ≤ listMax xs := by
  cases xs with
  | nil => cases hx
  | cons y yt =>
    rcases List.mem_cons.mp hx with rfl | hmem
    · exact init_le_foldl_max yt x
    · exact mem_le_foldl_max hmem y

theorem listMin_mem {xs : List ℚ} (h : xs ≠ []) : listMin xs ∈ xs := by
  cases xs with
  | nil => exact absurd rfl h
  | cons y yt =>
    show yt.foldl min y ∈ y :: yt
    rcases foldl_min_mem yt y with h2 | h2
    · exact (by rw [h2]; exact List.mem_cons_self y yt)
    · exact List.mem_cons_of_mem y h2

theorem listMax_mem {xs : List ℚ} (h : xs ≠ []) : listMax xs ∈ xs := by
  cases xs with
  | nil => exact absurd rfl h
  | cons y yt =>
    show yt.foldl max y ∈ y :: yt
    rcases foldl_max_mem yt y with h2 | h2
    · exact (by rw [h2]; exact List.mem_cons_self y yt)
    · exact List.mem_cons_of_mem y h2

theorem listMin_lt_listMax {xs : List ℚ} {a b : ℚ} (ha : a ∈ xs) (hb : b ∈ xs)
    (hab : a ≠ b) : listMin xs < listMax xs := by
  rcases lt_or_le (listMin xs) (listMax xs) with h | h
  · exact h
  · exfalso
    apply hab
    have haeq : a = listMax xs :=
      le_antisymm (le_listMax ha) (le_trans h (listMin_le ha))
    have hbeq : b = listMax xs :=
      le_antisymm (le_listMax hb) (le_trans h (listMin_le hb))
    rw [haeq, hbeq]

theorem minmaxScale_length (xs : List ℚ) : (minmaxScale xs).length = xs.length := by
  simp [minmaxScale]

theorem minmaxScale_bounds {xs : List ℚ} (h : listMin xs < listMax xs) {y : ℚ}
    (hy : y ∈ minmaxScale xs) : 0 ≤ y ∧ y ≤ 100 := by
  simp only [minmaxScale, List.mem_map] at hy
  obtain ⟨x, hx, rfl⟩ := hy
  have hrange : listMax xs - listMin xs ≠ 0 := by
    have := sub_pos.mpr h
    exact ne_of_gt this
  rw [if_neg hrange]
  have hlo : listMin xs ≤ x := listMin_le hx
  have hhi : x ≤ listMax xs := le_listMax hx
  have hpos : 0 < listMax xs - listMin xs := sub_pos.mpr h
  constructor
  · apply mul_nonneg (by linarith)
    positivity
  · calc (x - listMin xs) * (100 / (listMax xs - listMin xs))
        ≤ (listMax xs - listMin xs) * (100 / (listMax xs - listMin xs)) := by
          apply mul_le_mul_of_nonneg_right (by linarith)
          positivity
    _ = 100 := by field_simp

theorem minmaxScale_getElem?_min {xs : List ℚ}
    {i : ℕ} (hx : xs[i]? = some (listMin xs)) :
    (minmaxScale xs)[i]? = some 0 := by
  simp only [minmaxScale, List.getElem?_map, hx, Option.map_some']
  simp

theorem minmaxScale_getElem?_max {xs : List ℚ} (h : listMin xs < listMax xs)
    {i : ℕ} (hx : xs[i]? = some (listMax xs)) :
    (minmaxScale xs)[i]? = some 100 := by
  simp only [minmaxScale, List.getElem?_map, hx, Option.map_some']
  have hrange : listMax xs - listMin xs ≠ 0 := ne_of_gt (sub_pos.mpr h)
  rw [if_neg hrange]
  congr 1
  field_simp

theorem minmaxScale_const {xs : List ℚ} {c : ℚ} (h : ∀ x ∈ xs, x = c) :
    minmaxScale xs = List.replicate xs.length 0 := by
  apply List.eq_replicate_iff.mpr
  refine ⟨minmaxScale_length xs, ?_⟩
  intro b hb
  simp only [minmaxScale, List.mem_map] at hb
  obtain ⟨x, hx, rfl⟩ := hb
  have hmin : listMin xs = c := h (listMin xs) (listMin_mem (List.ne_nil_of_mem hx))
  rw [h x hx, hmin]
  simp

/-! ### Helper lemmas about the scoring pipeline -/

theorem rawScores_length (algo : ForestAlgo) (X : List (ℚ × ℚ)) :
    (rawScores algo X).length = X.length := by
  simp [rawScores]

theorem negScores_length (algo : ForestAlgo) (X : List (ℚ × ℚ)) :
    (negScores algo X).length = X.length := by
  simp [negScores, rawScores]

theorem riskScores_length (algo : ForestAlgo) (X : List (ℚ × ℚ)) :
    (riskScores algo X).length = X.length := by
  rw [riskScores, minmaxScale_length, negScores_length]

theorem anomalyLabels_length (algo : ForestAlgo) (X : List (ℚ × ℚ)) :
    (anomalyLabels algo X).length = X.length := by
  simp [anomalyLabels]

theorem extractFeatures_length {df : DataFrame} {X : List (ℚ × ℚ)}
    (h : extractFeatures df = .ok X) : X.length = df.rows.length := by
  unfold extractFeatures at h
  split at h
  next us ps hu hp =>
    split at h
    next us' ps' hu' hp' =>
      cases h
      have h1 : us'.length = df.rows.length :=
        (optMap_length hu').trans (getCol_length hu)
      have h2 : ps'.length = df.rows.length :=
        (optMap_length hp').trans (getCol_length hp)
      simp [h1, h2]
    next => cases h
  next => cases h

theorem detect_ok (algo : ForestAlgo) {df : DataFrame} {X : List (ℚ × ℚ)}
    (hX : extractFeatures df = .ok X) (hne : X ≠ []) :
    detect_anomalies algo df = .ok (annotate algo df X) := by
  have h : detect_anomalies algo df =
      if X.isEmpty then Except.error ScoreError.insufficientData
      else Except.ok (annotate algo df X) := by
    unfold detect_anomalies
    rw [hX]
  rw [h, if_neg (by simpa [List.isEmpty_iff] using hne)]

theorem detect_ok_inv {algo : ForestAlgo} {df out : DataFrame}
    (h : detect_anomalies algo df = .ok out) :
    ∃ X, extractFeatures df = .ok X ∧ X ≠ [] ∧ out = annotate algo df X := by
  unfold detect_anomalies at h
  split at h
  next e heq => cases h
  next X heq =>
    split at h
    next hempty => cases h
    next hempty =>
      cases h
      exact ⟨X, heq, by simpa [List.isEmpty_iff] using hempty, rfl⟩

/-- Freshness of the four assigned column names, chained through the four
assignments of `annotate`. -/
theorem annotate_getCol (algo : ForestAlgo) {df : DataFrame} {X : List (ℚ × ℚ)}
    (hrect : df.Rect)
    (h1 : "anomaly" ∉ df.cols) (h2 : "anomaly_score" ∉ df.cols)
    (h3 : "risk_score" ∉ df.cols) (h4 : "Risk_Level" ∉ df.cols)
    (hlen : X.length = df.rows.length) :
    (annotate algo df X).getCol "anomaly_score" = some ((rawScores algo X).map Value.num) ∧
    (annotate algo df X).getCol "risk_score" = some ((riskScores algo X).map Value.num) ∧
    (annotate algo df X).getCol "Risk_Level" =
      some ((riskScores algo X).map (fun s => Value.str (risk_level s))) := by
  unfold annotate
  set d1 := df.setCol "anomaly" (anomalyLabels algo X) with hd1
  have hlenA : (anomalyLabels algo X).length = df.rows.length := by
    rw [anomalyLabels_length, hlen]
  have hcols1 : d1.cols = df.cols ++ ["anomaly"] := setCol_fresh_cols h1
  have hrect1 : d1.Rect := setCol_fresh_rect h1 hrect
  have hrows1 : d1.rows.length = df.rows.length := setCol_fresh_rows_length h1 hlenA
  have h2' : "anomaly_score" ∉ d1.cols := by
    rw [hcols1]
    simp only [List.mem_append, List.mem_singleton]
    rintro (hmem | heq)
    · exact h2 hmem
    · exact absurd heq (by decide)
  have h3' : "risk_score" ∉ d1.cols := by
    rw [hcols1]
    simp only [List.mem_append, List.mem_singleton]
    rintro (hmem | heq)
    · exact h3 hmem
    · exact absurd heq (by decide)
  have h4' : "Risk_Level" ∉ d1.cols := by
    rw [hcols1]
    simp only [List.mem_append, List.mem_singleton]
    rintro (hmem | heq)
    · exact h4 hmem
    · exact absurd heq (by decide)
  set d2 := d1.setCol "anomaly_score" ((rawScores algo X).map Value.num) with hd2
  have hlenS : ((rawScores algo X).map Value.num).length = d1.rows.length := by
    simp [rawScores_length, hlen, hrows1]
  have hcols2 : d2.cols = d1.cols ++ ["anomaly_score"] := setCol_fresh_cols h2'
  have hrect2 : d2.Rect := setCol_fresh_rect h2' hrect1
  have hrows2 : d2.rows.length = d1.rows.length := setCol_fresh_rows_length h2' hlenS
  have h3'' : "risk_score" ∉ d2.cols := by
    rw [hcols2]
    simp only [List.mem_append, List.mem_singleton]
    rintro (hmem | heq)
    · exact h3' hmem
    · exact absurd heq (by decide)
  have h4'' : "Risk_Level" ∉ d2.cols := by
    rw [hcols2]
    simp only [List.mem_append, List.mem_singleton]
    rintro (hmem | heq)
    · exact h4' hmem
    · exact absurd heq (by decide)
  set d3 := d2.setCol "risk_score" ((riskScores algo X).map Value.num) with hd3
  have hlenR : ((riskScores algo X).map Value.num).length = d2.rows.length := by
    simp [riskScores_length, hlen, hrows1, hrows2]
  have hcols3 : d3.cols = d2.cols ++ ["risk_score"] := setCol_fresh_cols h3''
  have hrect3 : d3.Rect := setCol_fresh_rect h3'' hrect2
  have hrows3 : d3.rows.length = d2.rows.length := setCol_fresh_rows_length h3'' hlenR
  have h4''' : "Risk_Level" ∉ d3.cols := by
    rw [hcols3]
    simp only [List.mem_append, List.mem_singleton]
    rintro (hmem | heq)
    · exact h4'' hmem
    · exact absurd heq (by decide)
  have hlenL : ((riskScores algo X).map (fun s => Value.str (risk_level s))).length
      = d3.rows.length := by
    simp [riskScores_length, hlen, hrows1, hrows2, hrows3]
  refine ⟨?_, ?_, ?_⟩
  · rw [getCol_setCol_fresh_other hrect3 h4''' hlenL (by decide),
      getCol_setCol_fresh_other hrect2 h3'' hlenR (by decide)]
    exact getCol_setCol_fresh_self hrect1 h2' hlenS
  · rw [getCol_setCol_fresh_other hrect3 h4''' hlenL (by decide)]
    exact getCol_setCol_fresh_self hrect2 h3'' hlenR
  · exact getCol_setCol_fresh_self hrect3 h4''' hlenL

/-- Row structure of the annotated frame: each input row extended by the
four new cells, in input order. -/
theorem annotate_rows (algo : ForestAlgo) {df : DataFrame} {X : List (ℚ × ℚ)}
    (h1 : "anomaly" ∉ df.cols) (h2 : "anomaly_score" ∉ df.cols)
    (h3 : "risk_score" ∉ df.cols) (h4 : "Risk_Level" ∉ df.cols)
    (hlen : X.length = df.rows.length) :
    (annotate algo df X).rows.length = df.rows.length ∧
    ∀ i : ℕ, ∀ r : List Value, df.rows[i]? = some r →
      ∃ a s t l : Value, (annotate algo df X).rows[i]? = some (r ++ [a, s, t, l]) := by
  unfold annotate
  set d1 := df.setCol "anomaly" (anomalyLabels algo X) with hd1
  have hlenA : (anomalyLabels algo X).length = df.rows.length := by
    rw [anomalyLabels_length, hlen]
  have hcols1 : d1.cols = df.cols ++ ["anomaly"] := setCol_fresh_cols h1
  have hrows1 : d1.rows.length = df.rows.length := setCol_fresh_rows_length h1 hlenA
  have h2' : "anomaly_score" ∉ d1.cols := by
    rw [hcols1]
    simp only [List.mem_append, List.mem_singleton]
    rintro (hmem | heq)
    · exact h2 hmem
    · exact absurd heq (by decide)
  have h3' : "risk_score" ∉ d1.cols := by
    rw [hcols1]
    simp only [List.mem_append, List.mem_singleton]
    rintro (hmem | heq)
    · exact h3 hmem
    · exact absurd heq (by decide)
  have h4' : "Risk_Level" ∉ d1.cols := by
    rw [hcols1]
    simp only [List.mem_append, List.mem_singleton]
    rintro (hmem | heq)
    · exact h4 hmem
    · exact absurd heq (by decide)
  set d2 := d1.setCol "anomaly_score" ((rawScores algo X).map Value.num) with hd2
  have hlenS : ((rawScores algo X).map Value.num).length = d1.rows.length := by
    simp [rawScores_length, hlen, hrows1]
  have hcols2 : d2.cols = d1.cols ++ ["anomaly_score"] := setCol_fresh_cols h2'
  have hrows2 : d2.rows.length = d1.rows.length := setCol_fresh_rows_length h2' hlenS
  have h3'' : "risk_score" ∉ d2.cols := by
    rw [hcols2]
    simp only [List.mem_append, List.mem_singleton]
    rintro (hmem | heq)
    · exact h3' hmem
    · exact absurd heq (by decide)
  have h4'' : "Risk_Level" ∉ d2.cols := by
    rw [hcols2]
    simp only [List.mem_append, List.mem_singleton]
    rintro (hmem | heq)
    · exact h4' hmem
    · exact absurd heq (by decide)
  set d3 := d2.setCol "risk_score" ((riskScores algo X).map Value.num) with hd3
  have hlenR : ((riskScores algo X).map Value.num).length = d2.rows.length := by
    simp [riskScores_length, hlen, hrows1, hrows2]
  have hrows3 : d3.rows.length = d2.rows.length := setCol_fresh_rows_length h3'' hlenR
  have h4''' : "Risk_Level" ∉ d3.cols := by
    rw [setCol_fresh_cols h3'']
    simp only [List.mem_append, List.mem_singleton]
    rintro (hmem | heq)
    · exact h4'' hmem
    · exact absurd heq (by decide)
  have hlenL : ((riskScores algo X).map (fun s => Value.str (risk_level s))).length
      = d3.rows.length := by
    simp [riskScores_length, hlen, hrows1, hrows2, hrows3]
  constructor
  · rw [setCol_fresh_rows_length h4''' hlenL, hrows3, hrows2, hrows1]
  · intro i r hr
    have hi : i < df.rows.length := by
      by_contra hi
      rw [List.getElem?_eq_none (by omega)] at hr
      cases hr
    obtain ⟨a0, hA⟩ : ∃ a0, (anomalyLabels algo X)[i]? = some a0 :=
      ⟨_, List.getElem?_eq_getElem (by rw [anomalyLabels_length, hlen]; omega)⟩
    obtain ⟨s0, hS⟩ : ∃ s0, ((rawScores algo X).map Value.num)[i]? = some s0 :=
      ⟨_, List.getElem?_eq_getElem
        (by simp only [List.length_map, rawScores_length]; omega)⟩
    obtain ⟨t0, hT⟩ : ∃ t0, ((riskScores algo X).map Value.num)[i]? = some t0 :=
      ⟨_, List.getElem?_eq_getElem
        (by simp only [List.length_map, riskScores_length]; omega)⟩
    obtain ⟨l0, hL⟩ :
        ∃ l0, ((riskScores algo X).map (fun s => Value.str (risk_level s)))[i]? = some l0 :=
      ⟨_, List.getElem?_eq_getElem
        (by simp only [List.length_map, riskScores_length]; omega)⟩
    refine ⟨a0, s0, t0, l0, ?_⟩
    rw [setCol_fresh_rows_getElem? h4''', setCol_fresh_rows_getElem? h3'',
      setCol_fresh_rows_getElem? h2', setCol_fresh_rows_getElem? h1]
    rw [hr, hA, hS, hT, hL]
    simp [List.append_assoc]

/-! ### Claim theorems -/

/-- C1: the tier classification is total with lower-closed boundaries: every
score of 70 or more maps to High, scores in [40, 70) map to Medium, scores
below 40 map to Low, every score receives exactly one of the three tiers,
and the boundary cases 70, 69.999, 40 and 39.999 map to High, Medium,
Medium and Low respectively. -/
theorem risk_level_tiers (q : ℚ) :
    (70 ≤ q → risk_level q = "High") ∧
    (40 ≤ q → q < 70 → risk_level q = "Medium") ∧
    (q < 40 → risk_level q = "Low") ∧
    (risk_level q = "High" ∨ risk_level q = "Medium" ∨ risk_level q = "Low") ∧
    risk_level 70 = "High" ∧ risk_level (69999 / 1000) = "Medium" ∧
    risk_level 40 = "Medium" ∧ risk_level (39999 / 1000) = "Low" := by
  refine ⟨?_, ?_, ?_, ?_, by norm_num [risk_level], by norm_num [risk_level],
    by norm_num [risk_level], by norm_num [risk_level]⟩
  · intro h
    unfold risk_level
    rw [if_pos h]
  · intro h1 h2
    unfold risk_level
    rw [if_neg (not_le.mpr h2), if_pos h1]
  · intro h
    unfold risk_level
    rw [if_neg (not_le.mpr (by linarith)), if_neg (not_le.mpr h)]
  · unfold risk_level
    split_ifs <;> simp

/-- Witness for C1 at the concrete scores 55, 85 and 12. -/
theorem risk_level_tiers_witness :
    risk_level 55 = "Medium" ∧ risk_level 85 = "High" ∧ risk_level 12 = "Low" :=
  ⟨(risk_level_tiers 55).2.1 (by norm_num) (by norm_num),
   (risk_level_tiers 85).1 (by norm_num),
   (risk_level_tiers 12).2.2.1 (by norm_num)⟩

/-- C2: on a successfully scored batch with at least two distinct raw
anomaly measures, the risk_score column annotated by the scorer is the
min-max rescaling of the negated raw measures: every value lies in
[0, 100], a row holding the minimum negated measure scores exactly 0, and a
row holding the maximum negated measure scores exactly 100. -/
theorem detect_anomalies_range (algo : ForestAlgo) (df out : DataFrame)
    (X : List (ℚ × ℚ))
    (hrect : df.Rect)
    (h1 : "anomaly" ∉ df.cols) (h2 : "anomaly_score" ∉ df.cols)
    (h3 : "risk_score" ∉ df.cols) (h4 : "Risk_Level" ∉ df.cols)
    (hX : extractFeatures df = .ok X)
    (hok : detect_anomalies algo df = .ok out)
    (hdist : ∃ a ∈ rawScores algo X, ∃ b ∈ rawScores algo X, a ≠ b) :
    out.getCol "risk_score" = some ((riskScores algo X).map Value.num) ∧
    (∀ s ∈ riskScores algo X, 0 ≤ s ∧ s ≤ 100) ∧
    (∀ i : ℕ, (negScores algo X)[i]? = some (listMin (negScores algo X)) →
      (riskScores algo X)[i]? = some 0) ∧
    (∀ i : ℕ, (negScores algo X)[i]? = some (listMax (negScores algo X)) →
      (riskScores algo X)[i]? = some 100) := by
  obtain ⟨X', hX', hne', hout⟩ := detect_ok_inv hok
  rw [hX] at hX'
  cases hX'
  have hlen := extractFeatures_length hX
  have hmm : listMin (negScores algo X) < listMax (negScores algo X) := by
    obtain ⟨a, ha, b, hb, hab⟩ := hdist
    have hna : -a ∈ negScores algo X := by
      simp only [negScores, List.mem_map]
      exact ⟨a, ha, rfl⟩
    have hnb : -b ∈ negScores algo X := by
      simp only [negScores, List.mem_map]
      exact ⟨b, hb, rfl⟩
    exact listMin_lt_listMax hna hnb (fun hc => hab (neg_inj.mp hc))
  subst hout
  obtain ⟨hA, hR, hL⟩ := annotate_getCol algo hrect h1 h2 h3 h4 hlen
  refine ⟨hR, ?_, ?_, ?_⟩
  · intro s hs
    unfold riskScores at hs
    exact minmaxScale_bounds hmm hs
  · intro i hi
    unfold riskScores
    exact minmaxScale_getElem?_min hi
  · intro i hi
    unfold riskScores
    exact minmaxScale_getElem?_max hmm hi

/-- Witness for C2 on the two-row frame `wDf`. -/
theorem detect_anomalies_range_witness :
    wOut.getCol "risk_score" = some ((riskScores wAlgo wX).map Value.num) :=
  (detect_anomalies_range wAlgo wDf wOut wX (by decide) (by decide) (by decide)
    (by decide) (by decide) (by rfl) (by rfl) (by decide)).1

/-- C3: on a batch whose rows all yield one identical raw anomaly measure
(in particular a batch of identical usage and pressure rows), the scorer
succeeds, with no division by zero, and annotates risk_score 0 on every
row. -/
theorem detect_anomalies_degenerate (algo : ForestAlgo) (df : DataFrame)
    (X : List (ℚ × ℚ)) (c : ℚ)
    (hrect : df.Rect)
    (h1 : "anomaly" ∉ df.cols) (h2 : "anomaly_score" ∉ df.cols)
    (h3 : "risk_score" ∉ df.cols) (h4 : "Risk_Level" ∉ df.cols)
    (hX : extractFeatures df = .ok X) (hne : X ≠ [])
    (hconst : ∀ a ∈ rawScores algo X, a = c) :
    ∃ out, detect_anomalies algo df = .ok out ∧
      out.getCol "risk_score" = some (List.replicate X.length (Value.num 0)) := by
  refine ⟨annotate algo df X, detect_ok algo hX hne, ?_⟩
  have hlen := extractFeatures_length hX
  obtain ⟨hA, hR, hL⟩ := annotate_getCol algo hrect h1 h2 h3 h4 hlen
  rw [hR]
  have hrep : riskScores algo X = List.replicate (negScores algo X).length 0 := by
    unfold riskScores
    apply minmaxScale_const
    intro x hx
    simp only [negScores, List.mem_map] at hx
    obtain ⟨a, ha, rfl⟩ := hx
    rw [hconst a ha]
  rw [hrep, negScores_length]
  simp [List.map_replicate]

/-- Witness for C3 on the constant two-row frame `wDfc`. -/
theorem detect_anomalies_degenerate_witness :
    ∃ out, detect_anomalies wAlgo wDfc = .ok out ∧
      out.getCol "risk_score" = some (List.replicate wXc.length (Value.num 0)) :=
  detect_anomalies_degenerate wAlgo wDfc wXc 10 (by decide) (by decide)
    (by decide) (by decide) (by decide) (by rfl) (by decide) (by decide)

/-- C4: a successful scoring run returns as many rows as the input, in the
input order, each input row extended in place with the four new cells. -/
theorem detect_anomalies_shape (algo : ForestAlgo) (df out : DataFrame)
    (h1 : "anomaly" ∉ df.cols) (h2 : "anomaly_score" ∉ df.cols)
    (h3 : "risk_score" ∉ df.cols) (h4 : "Risk_Level" ∉ df.cols)
    (hok : detect_anomalies algo df = .ok out) :
    out.rows.length = df.rows.length ∧
    ∀ i : ℕ, ∀ r : List Value, df.rows[i]? = some r →
      ∃ a s t l : Value, out.rows[i]? = some (r ++ [a, s, t, l]) := by
  obtain ⟨X, hX, hne, hout⟩ := detect_ok_inv hok
  subst hout
  exact annotate_rows algo h1 h2 h3 h4 (extractFeatures_length hX)

/-- Witness for C4 on the two-row frame `wDf`. -/
theorem detect_anomalies_shape_witness : wOut.rows.length = wDf.rows.length :=
  (detect_anomalies_shape wAlgo wDf wOut (by decide) (by decide) (by decide)
    (by decide) (by rfl)).1

/-- C5: the injector keeps the batch length, changes no row other than the
sampled one, and changes the sampled row only by adding the integer draw
(within [-50, 200]) to usage, adding the real draw (within [-0.3, 0.2]) to
pressure and overwriting the timestamp with the formatted current time; the
zone identifier is untouched. -/
theorem generate_live_data_frame (idx : ℕ) (du : ℤ) (dp : ℚ) (now : String)
    (rs out : List Reading)
    (hidx : idx < rs.length)
    (hdu : -50 ≤ du ∧ du ≤ 200)
    (hdp : -(3 / 10) ≤ dp ∧ dp ≤ 1 / 5)
    (hok : generate_live_data idx du dp now rs = .ok out) :
    out.length = rs.length ∧
    (∀ i : ℕ, i ≠ idx → out[i]? = rs[i]?) ∧
    ∀ r : Reading, rs[idx]? = some r →
      out[idx]? = some ⟨r.zone_id, now, r.usage + (du : ℚ), r.pressure + dp⟩ := by
  have hnil : rs ≠ [] := by
    intro h
    rw [h] at hidx
    simp at hidx
  unfold generate_live_data at hok
  rw [if_neg (by simpa [List.isEmpty_iff] using hnil)] at hok
  have hsome : rs[idx]? = some rs[idx] := List.getElem?_eq_getElem hidx
  rw [hsome] at hok
  have hout : out = rs.set idx (perturb du dp now rs[idx]) := (Except.ok.inj hok).symm
  subst hout
  refine ⟨by simp, ?_, ?_⟩
  · intro i hne
    exact List.getElem?_set_ne (fun h => hne h.symm)
  · intro r hr
    rw [hsome] at hr
    cases hr
    rw [List.getElem?_set_self hidx]
    rfl

/-- Witness for C5 on the two-reading batch `wRs`, perturbing row 1. -/
theorem generate_live_data_frame_witness : wRsOut.length = wRs.length :=
  (generate_live_data_frame 1 7 (1 / 10) "2025-01-01 00:00:00" wRs wRsOut
    (by decide) (by decide) (by norm_num) (by rfl)).1

/-- C6: the scorer aborts the whole batch with the feature-missing error
whenever the usage or the pressure column is absent, and with the
insufficient-data error whenever both columns are present but the batch has
no rows; in either case no annotated frame is returned. -/
theorem detect_anomalies_failures (algo : ForestAlgo) (df : DataFrame) :
    (("Water_Usage_Liters" ∉ df.cols ∨ "Pressure" ∉ df.cols) →
      detect_anomalies algo df = .error .featureMissing) ∧
    ("Water_Usage_Liters" ∈ df.cols → "Pressure" ∈ df.cols → df.rows = [] →
      detect_anomalies algo df = .error .insufficientData) := by
  constructor
  · intro hmiss
    have hext : extractFeatures df = .error .featureMissing := by
      unfold extractFeatures
      rcases hmiss with hm | hm
      · rw [getCol_not_mem hm]
      · rw [getCol_not_mem hm]
        cases df.getCol "Water_Usage_Liters" <;> rfl
    unfold detect_anomalies
    rw [hext]
  · intro hu hp hrows
    have hue : df.getCol "Water_Usage_Liters" = some [] := by
      unfold DataFrame.getCol
      obtain ⟨i, hfi, _⟩ := findIdx?_beq_isSome hu
      rw [hfi, hrows]
      rfl
    have hpe : df.getCol "Pressure" = some [] := by
      unfold DataFrame.getCol
      obtain ⟨i, hfi, _⟩ := findIdx?_beq_isSome hp
      rw [hfi, hrows]
      rfl
    have hext : extractFeatures df = .ok [] := by
      unfold extractFeatures
      rw [hue, hpe]
      rfl
    unfold detect_anomalies
    rw [hext]
    rfl

/-- Witness for C6 on a frame lacking the usage column and on an empty
frame carrying both feature columns. -/
theorem detect_anomalies_failures_witness :
    detect_anomalies wAlgo wDfm = .error .featureMissing ∧
    detect_anomalies wAlgo wDfe = .error .insufficientData :=
  ⟨(detect_anomalies_failures wAlgo wDfm).1 (Or.inl (by decide)),
   (detect_anomalies_failures wAlgo wDfe).2 (by decide) (by decide) rfl⟩

/-- C7: the injector fails with the empty-input error exactly on the empty
batch and succeeds on every non-empty batch. -/
theorem generate_live_data_empty_iff (idx : ℕ) (du : ℤ) (dp : ℚ) (now : String)
    (rs : List Reading) :
    (generate_live_data idx du dp now rs = .error .emptyInput ↔ rs = []) ∧
    (rs ≠ [] → ∃ out, generate_live_data idx du dp now rs = .ok out) := by
  constructor
  · constructor
    · intro h
      by_contra hne
      unfold generate_live_data at h
      rw [if_neg (by simpa [List.isEmpty_iff] using hne)] at h
      cases hg : rs[idx]? <;> rw [hg] at h <;> cases h
    · intro h
      subst h
      rfl
  · intro hne
    unfold generate_live_data
    rw [if_neg (by simpa [List.isEmpty_iff] using hne)]
    cases hg : rs[idx]? with
    | some r => exact ⟨_, rfl⟩
    | none => exact ⟨rs, rfl⟩

/-- Witness for C7 on the non-empty batch `wRs`. -/
theorem generate_live_data_empty_iff_witness :
    ∃ out, generate_live_data 1 7 (1 / 10) "2025-01-01 00:00:00" wRs = .ok out :=
  (generate_live_data_empty_iff 1 7 (1 / 10) "2025-01-01 00:00:00" wRs).2
    (by decide)

/-- C8: with the contamination and seed fixed in the source, the annotated
anomaly_score, risk_score and Risk_Level columns are a function of the
feature matrix alone: two successful runs over frames sharing the same
feature matrix (same usage and pressure values in the same row order)
produce identical score columns. -/
theorem detect_anomalies_deterministic (algo : ForestAlgo)
    (df1 df2 out1 out2 : DataFrame) (X : List (ℚ × ℚ))
    (hrect1 : df1.Rect) (hrect2 : df2.Rect)
    (h11 : "anomaly" ∉ df1.cols) (h12 : "anomaly_score" ∉ df1.cols)
    (h13 : "risk_score" ∉ df1.cols) (h14 : "Risk_Level" ∉ df1.cols)
    (h21 : "anomaly" ∉ df2.cols) (h22 : "anomaly_score" ∉ df2.cols)
    (h23 : "risk_score" ∉ df2.cols) (h24 : "Risk_Level" ∉ df2.cols)
    (hX1 : extractFeatures df1 = .ok X) (hX2 : extractFeatures df2 = .ok X)
    (hok1 : detect_anomalies algo df1 = .ok out1)
    (hok2 : detect_anomalies algo df2 = .ok out2) :
    out1.getCol "anomaly_score" = out2.getCol "anomaly_score" ∧
    out1.getCol "risk_score" = out2.getCol "risk_score" ∧
    out1.getCol "Risk_Level" = out2.getCol "Risk_Level" := by
  obtain ⟨X1, hX1', hne1, ho1⟩ := detect_ok_inv hok1
  rw [hX1] at hX1'
  cases hX1'
  obtain ⟨X2, hX2', hne2, ho2⟩ := detect_ok_inv hok2
  rw [hX2] at hX2'
  cases hX2'
  subst ho1
  subst ho2
  obtain ⟨a1, r1, l1⟩ :=
    annotate_getCol algo hrect1 h11 h12 h13 h14 (extractFeatures_length hX1)
  obtain ⟨a2, r2, l2⟩ :=
    annotate_getCol algo hrect2 h21 h22 h23 h24 (extractFeatures_length hX2)
  exact ⟨a1.trans a2.symm, r1.trans r2.symm, l1.trans l2.symm⟩

/-- Witness for C8 on the frames `wDf` and `wDf2`, which share the feature
matrix `wX`. -/
theorem detect_anomalies_deterministic_witness :
    wOut.getCol "risk_score" = wOut2.getCol "risk_score" :=
  (detect_anomalies_deterministic wAlgo wDf wDf2 wOut wOut2 wX
    (by decide) (by decide) (by decide) (by decide) (by decide) (by decide)
    (by decide) (by decide) (by decide) (by decide)
    (by rfl) (by rfl) (by rfl) (by rfl)).2.1

/-- C9 counterexample: the explanation function is defined on tier values
outside the three tiers: on the tier string Critical it neither fails nor
is undefined but returns the Low-tier template. -/
theorem generate_explanation_critical :
    generate_explanation "Critical" = lowText := by
  rfl

/-- C9 as amended: the explanation is keyed purely on the tier string and
is not parameterized by any numeric value: High and Medium map to their
fixed templates, and every other value, Low and unrecognized tiers alike,
maps to the fixed Low template; the function is total and never fails. -/
theorem generate_explanation_keyed (s : String) :
    (s = "High" → generate_explanation s = highText) ∧
    (s = "Medium" → generate_explanation s = mediumText) ∧
    (s ≠ "High" → s ≠ "Medium" → generate_explanation s = lowText) := by
  refine ⟨?_, ?_, ?_⟩
  · intro h
    subst h
    rfl
  · intro h
    subst h
    rfl
  · intro hh hm
    unfold generate_explanation
    rw [if_neg hh, if_neg hm]

/-- Witness for the amended C9 at the tier string Low. -/
theorem generate_explanation_keyed_witness :
    generate_explanation "Low" = lowText :=
  (generate_explanation_keyed "Low").2.2 (by decide) (by decide)

/-- C10: at the heap level the scorer leaves the caller's frame reference
untouched (the copy taken on its first line receives all the column
writes), and a successful run returns a reference that was unallocated
before the call, so the annotated frame is freshly constructed. -/
theorem detect_anomaliesH_no_mutation (algo : ForestAlgo) (h h' : Heap)
    (r0 : ℕ) (res : Except ScoreError ℕ)
    (hrun : detect_anomaliesH algo h r0 = (res, h')) :
    h'.read r0 = h.read r0 ∧ ∀ r1 : ℕ, res = .ok r1 → h.read r1 = none := by
  simp only [detect_anomaliesH] at hrun
  split at hrun
  next hread =>
    cases hrun
    exact ⟨rfl, fun r1 hr1 => by cases hr1⟩
  next caller hread =>
    have hr0 : r0 < h.frames.length := by
      by_contra hlt
      unfold Heap.read at hread
      rw [List.getElem?_eq_none (by omega)] at hread
      cases hread
    split at hrun
    next e hdet =>
      cases hrun
      constructor
      · show (h.alloc caller).read r0 = h.read r0
        unfold Heap.read Heap.alloc
        rw [List.getElem?_append, if_pos hr0]
      · intro r1 hr1
        cases hr1
    next out hdet =>
      cases hrun
      constructor
      · show ((h.alloc caller).write h.frames.length out).read r0 = h.read r0
        unfold Heap.read Heap.write Heap.alloc
        rw [List.getElem?_set_ne (by omega), List.getElem?_append, if_pos hr0]
      · intro r1 hr1
        cases hr1
        unfold Heap.read
        exact List.getElem?_eq_none (le_refl _)

/-- Witness for C10 on a one-frame heap holding `wDf`. -/
theorem detect_anomaliesH_no_mutation_witness :
    (detect_anomaliesH wAlgo wHeap 0).2.read 0 = wHeap.read 0 :=
  (detect_anomaliesH_no_mutation wAlgo wHeap (detect_anomaliesH wAlgo wHeap 0).2 0
    (detect_anomaliesH wAlgo wHeap 0).1 rfl).1

end WaterLoss
